import Mathlib

/-!
# Verification of the scalar gradient-descent minimizer

Shallow embedding of the function gradient_descent from
src/01-gradient_descent/GradientDescent.ipynb, whose body is, line by line:

    h = h_0
    for iteration in range(max_iter):
        h_next = h - alpha * derivative_of_f(h)
        if np.abs(h_next - h) < tol:
            break
        if verbose:
            print the per-iteration progress line with iteration and h_next
        if callback is not None:
            callback(h_next)
        h = h_next
    else:
        if verbose:
            print the reached-max-iters line
    return h

with keyword defaults max_iter=10000, tol=1e-12, verbose=False,
callback=None.

The numeric values are modelled over an arbitrary linear ordered field
(instantiated at `ℚ` for concrete evaluations).  The for/break/else
control flow is embedded as structural recursion on the remaining iteration
budget, and the observable side effects (verbose printing and the callback
hook) are recorded as explicit traces.
-/

namespace DSC40A

variable {F : Type} [LinearOrderedField F]

/-- The body of the `for iteration in range(max_iter)` loop of
`gradient_descent`, as structural recursion on the remaining iteration
budget.  On each iteration it computes `h_next = h - alpha * derivative_of_f h`;
if `|h_next - h| < tol` it stops and returns the pre-update `h` (the Python
`break` before `h = h_next`), otherwise it adopts `h_next` and continues.
When the budget is exhausted it returns the current `h` (the Python loop
falling through to `return h`). -/
def gdLoop (derivative_of_f : F → F) (alpha tol : F) : F → ℕ → F
  | h, 0 => h
  | h, n + 1 =>
    let h_next := h - alpha * derivative_of_f h
    if |h_next - h| < tol then h
    else gdLoop derivative_of_f alpha tol h_next n

/-- The notebook function gradient_descent: run the loop starting at the
initial guess `h_0` with an iteration budget of `max_iter`. -/
def gradient_descent (derivative_of_f : F → F) (h_0 alpha : F) (max_iter : ℕ)
    (tol : F) : F :=
  gdLoop derivative_of_f alpha tol h_0 max_iter

/-- One gradient-descent update step, `h - alpha * derivative_of_f h`
(the expression assigned to `h_next` in the source). -/
def gdUpdate (derivative_of_f : F → F) (alpha : F) (h : F) : F :=
  h - alpha * derivative_of_f h

/-- All candidates `h_next` computed by the loop, in order.  Each entry
corresponds to exactly one evaluation of `derivative_of_f`.  The candidate
computed on the iteration where the convergence check fires is included
(it is computed before the `break`). -/
def gdCandidates (derivative_of_f : F → F) (alpha tol : F) : F → ℕ → List F
  | _, 0 => []
  | h, n + 1 =>
    let h_next := h - alpha * derivative_of_f h
    if |h_next - h| < tol then [h_next]
    else h_next :: gdCandidates derivative_of_f alpha tol h_next n

/-- The candidates the loop actually adopts (`h = h_next`), in order: the
computed candidate on an iteration where the convergence check fires is
not adopted (the `break` comes first). -/
def gdAdopted (derivative_of_f : F → F) (alpha tol : F) : F → ℕ → List F
  | _, 0 => []
  | h, n + 1 =>
    let h_next := h - alpha * derivative_of_f h
    if |h_next - h| < tol then []
    else h_next :: gdAdopted derivative_of_f alpha tol h_next n

/-- An observable line printed by the minimizer when verbose is set:
either the per-iteration progress line (carrying the iteration number and
the new candidate) or the final reached-max-iters line. -/
inductive GDEvent (F : Type) where
  | iterLine : ℕ → F → GDEvent F
  | maxItersLine : GDEvent F
  deriving DecidableEq

/-- The full observable outcome of one call of `gradient_descent`: the
returned value, the lines printed (when verbose), and the arguments the
callback was invoked with (when a callback was supplied). -/
structure GDRunResult (F : Type) where
  result : F
  printed : List (GDEvent F)
  callbackCalls : List F
  deriving DecidableEq

/-- The loop of `gradient_descent` with its side effects made explicit:
`verbose` and `hasCallback` say whether `verbose=True` respectively whether
a callback was supplied; printed lines and callback arguments are recorded
in traces.  Mirrors the source statement for statement: the convergence
check comes first, then the verbose print of `h_next`, then the callback
invocation with `h_next`, then the assignment `h = h_next`; the `else`
clause of the `for` prints `Reached Max Iters`. -/
def gdRunLoop (derivative_of_f : F → F) (alpha tol : F)
    (verbose hasCallback : Bool) : F → ℕ → ℕ → GDRunResult F
  | h, _, 0 => ⟨h, if verbose then [GDEvent.maxItersLine] else [], []⟩
  | h, iteration, n + 1 =>
    let h_next := h - alpha * derivative_of_f h
    if |h_next - h| < tol then ⟨h, [], []⟩
    else
      let r := gdRunLoop derivative_of_f alpha tol verbose hasCallback h_next
        (iteration + 1) n
      ⟨r.result,
       (if verbose then [GDEvent.iterLine iteration h_next] else []) ++ r.printed,
       (if hasCallback then [h_next] else []) ++ r.callbackCalls⟩

/-- The notebook function gradient_descent with its observable side
effects: starts at `h_0` with iteration counter `0`. -/
def gradient_descent_run (derivative_of_f : F → F) (h_0 alpha : F)
    (max_iter : ℕ) (tol : F) (verbose hasCallback : Bool) : GDRunResult F :=
  gdRunLoop derivative_of_f alpha tol verbose hasCallback h_0 0 max_iter

/-! ## Basic unfolding lemmas -/

/-- Unfolding the loop body for one available iteration: the candidate
`gdUpdate derivative_of_f alpha h` is computed, the convergence check is
made, and on failure the candidate is adopted. -/
theorem gdLoop_succ (derivative_of_f : F → F) (alpha tol h : F) (n : ℕ) :
    gdLoop derivative_of_f alpha tol h (n + 1) =
      if |gdUpdate derivative_of_f alpha h - h| < tol then h
      else gdLoop derivative_of_f alpha tol (gdUpdate derivative_of_f alpha h) n :=
  rfl

/-- Unfolding the adopted-candidates trace for one available iteration. -/
theorem gdAdopted_succ (derivative_of_f : F → F) (alpha tol h : F) (n : ℕ) :
    gdAdopted derivative_of_f alpha tol h (n + 1) =
      if |gdUpdate derivative_of_f alpha h - h| < tol then []
      else gdUpdate derivative_of_f alpha h ::
        gdAdopted derivative_of_f alpha tol (gdUpdate derivative_of_f alpha h) n :=
  rfl

/-- Unfolding the computed-candidates trace for one available iteration. -/
theorem gdCandidates_succ (derivative_of_f : F → F) (alpha tol h : F) (n : ℕ) :
    gdCandidates derivative_of_f alpha tol h (n + 1) =
      if |gdUpdate derivative_of_f alpha h - h| < tol then
        [gdUpdate derivative_of_f alpha h]
      else gdUpdate derivative_of_f alpha h ::
        gdCandidates derivative_of_f alpha tol (gdUpdate derivative_of_f alpha h) n :=
  rfl

/-- Unfolding the effectful loop for one available iteration. -/
theorem gdRunLoop_succ (derivative_of_f : F → F) (alpha tol : F)
    (verbose hasCallback : Bool) (h : F) (iteration n : ℕ) :
    gdRunLoop derivative_of_f alpha tol verbose hasCallback h iteration (n + 1) =
      if |gdUpdate derivative_of_f alpha h - h| < tol then ⟨h, [], []⟩
      else
        let r := gdRunLoop derivative_of_f alpha tol verbose hasCallback
          (gdUpdate derivative_of_f alpha h) (iteration + 1) n
        ⟨r.result,
         (if verbose then [GDEvent.iterLine iteration (gdUpdate derivative_of_f alpha h)]
          else []) ++ r.printed,
         (if hasCallback then [gdUpdate derivative_of_f alpha h] else []) ++
           r.callbackCalls⟩ :=
  rfl

/-! ## Structural lemmas about the loop -/

/-- If the convergence check fails on the first `k` iterations and fires on
iteration `k` (counting from zero), the loop stops there and returns the
pre-update value, which is the `k`-fold iterate of the update map. -/
theorem gdLoop_eq_of_first_fire (derivative_of_f : F → F) (alpha tol : F) :
    ∀ (k n : ℕ) (h : F), k < n →
    (∀ j < k, ¬ |gdUpdate derivative_of_f alpha ((gdUpdate derivative_of_f alpha)^[j] h) -
        (gdUpdate derivative_of_f alpha)^[j] h| < tol) →
    |gdUpdate derivative_of_f alpha ((gdUpdate derivative_of_f alpha)^[k] h) -
        (gdUpdate derivative_of_f alpha)^[k] h| < tol →
    gdLoop derivative_of_f alpha tol h n = (gdUpdate derivative_of_f alpha)^[k] h := by
  intro k
  induction k with
  | zero =>
    intro n h hk hbefore hfire
    match n, hk with
    | n + 1, _ =>
      rw [Function.iterate_zero_apply] at hfire ⊢
      rw [gdLoop_succ, if_pos hfire]
  | succ k ih =>
    intro n h hk hbefore hfire
    match n, hk with
    | n + 1, hk =>
      have h0 := hbefore 0 (Nat.succ_pos k)
      rw [Function.iterate_zero_apply] at h0
      rw [gdLoop_succ, if_neg h0]
      have hrec := ih n (gdUpdate derivative_of_f alpha h) (Nat.lt_of_succ_lt_succ hk)
        (fun j hj => by
          have := hbefore (j + 1) (Nat.succ_lt_succ hj)
          rwa [Function.iterate_succ_apply] at this)
        (by rwa [Function.iterate_succ_apply] at hfire)
      rw [hrec, ← Function.iterate_succ_apply]

/-- If the convergence check fails on every one of the `n` available
iterations, the loop runs them all: the returned value is the `n`-fold
iterate of the update map, and the adopted candidates are exactly the
iterates `1, ..., n` of the update map in order. -/
theorem gdLoop_eq_of_no_fire (derivative_of_f : F → F) (alpha tol : F) :
    ∀ (n : ℕ) (h : F),
    (∀ j < n, ¬ |gdUpdate derivative_of_f alpha ((gdUpdate derivative_of_f alpha)^[j] h) -
        (gdUpdate derivative_of_f alpha)^[j] h| < tol) →
    gdLoop derivative_of_f alpha tol h n = (gdUpdate derivative_of_f alpha)^[n] h ∧
    gdAdopted derivative_of_f alpha tol h n =
      (List.range n).map (fun j => (gdUpdate derivative_of_f alpha)^[j + 1] h) := by
  intro n
  induction n with
  | zero => exact fun h _ => ⟨rfl, rfl⟩
  | succ n ih =>
    intro h hnofire
    have h0 := hnofire 0 (Nat.succ_pos n)
    rw [Function.iterate_zero_apply] at h0
    have hrec := ih (gdUpdate derivative_of_f alpha h)
      (fun j hj => by
        have := hnofire (j + 1) (Nat.succ_lt_succ hj)
        rwa [Function.iterate_succ_apply] at this)
    constructor
    · rw [gdLoop_succ, if_neg h0, hrec.1, ← Function.iterate_succ_apply]
    · rw [gdAdopted_succ, if_neg h0, hrec.2, List.range_succ_eq_map]
      simp only [List.map_cons, List.map_map, Function.iterate_one]
      refine congrArg₂ _ rfl ?_
      refine congrArg₂ _ (funext fun j => ?_) rfl
      simp [Function.comp, Function.iterate_succ_apply]

/-- The loop evaluates the derivative at most once per available iteration:
the computed-candidates trace (one entry per derivative evaluation) has
length at most the iteration budget. -/
theorem gdCandidates_length_le (derivative_of_f : F → F) (alpha tol : F) :
    ∀ (n : ℕ) (h : F), (gdCandidates derivative_of_f alpha tol h n).length ≤ n := by
  intro n
  induction n with
  | zero => exact fun h => Nat.le_refl 0
  | succ n ih =>
    intro h
    rw [gdCandidates_succ]
    by_cases hc : |gdUpdate derivative_of_f alpha h - h| < tol
    · rw [if_pos hc]
      exact Nat.succ_le_succ (Nat.zero_le n)
    · rw [if_neg hc, List.length_cons]
      exact Nat.succ_le_succ (ih (gdUpdate derivative_of_f alpha h))

/-- Whatever happens, the loop returns the last adopted candidate (the
initial value when no candidate was ever adopted). -/
theorem gdLoop_eq_getLastD (derivative_of_f : F → F) (alpha tol : F) :
    ∀ (n : ℕ) (h : F),
    gdLoop derivative_of_f alpha tol h n =
      (gdAdopted derivative_of_f alpha tol h n).getLastD h := by
  intro n
  induction n with
  | zero => exact fun h => rfl
  | succ n ih =>
    intro h
    rw [gdLoop_succ, gdAdopted_succ]
    by_cases hc : |gdUpdate derivative_of_f alpha h - h| < tol
    · rw [if_pos hc, if_pos hc]
      rfl
    · rw [if_neg hc, if_neg hc, ih (gdUpdate derivative_of_f alpha h),
        List.getLastD_cons]

/-- The returned value of the effectful loop coincides with the pure loop,
whatever the verbosity, the callback and the iteration counter. -/
theorem gdRunLoop_result (derivative_of_f : F → F) (alpha tol : F)
    (verbose hasCallback : Bool) :
    ∀ (n : ℕ) (h : F) (iteration : ℕ),
    (gdRunLoop derivative_of_f alpha tol verbose hasCallback h iteration n).result =
      gdLoop derivative_of_f alpha tol h n := by
  intro n
  induction n with
  | zero => exact fun h iteration => rfl
  | succ n ih =>
    intro h iteration
    rw [gdRunLoop_succ, gdLoop_succ]
    by_cases hc : |gdUpdate derivative_of_f alpha h - h| < tol
    · rw [if_pos hc, if_pos hc]
    · rw [if_neg hc, if_neg hc]
      exact ih (gdUpdate derivative_of_f alpha h) (iteration + 1)

/-- With a callback supplied, the arguments the callback is invoked with
are exactly the adopted candidates, in order, whatever the verbosity and
the iteration counter. -/
theorem gdRunLoop_callbackCalls (derivative_of_f : F → F) (alpha tol : F)
    (verbose : Bool) :
    ∀ (n : ℕ) (h : F) (iteration : ℕ),
    (gdRunLoop derivative_of_f alpha tol verbose true h iteration n).callbackCalls =
      gdAdopted derivative_of_f alpha tol h n := by
  intro n
  induction n with
  | zero => exact fun h iteration => rfl
  | succ n ih =>
    intro h iteration
    rw [gdRunLoop_succ, gdAdopted_succ]
    by_cases hc : |gdUpdate derivative_of_f alpha h - h| < tol
    · rw [if_pos hc, if_pos hc]
    · rw [if_neg hc, if_neg hc]
      simp [ih (gdUpdate derivative_of_f alpha h) (iteration + 1)]

/-- Contraction bound for the quadratic-bowl derivative
`fun x => 2 * (x - c)`: with step size `alpha` satisfying
`0 < alpha` and `2 * alpha ≤ 1`, the value the loop returns is within
`max (tol / (2 * alpha)) ((1 - 2 * alpha) ^ n * |h - c|)` of `c`. -/
theorem gdLoop_quadratic_bound (c alpha tol : F) (halpha : 0 < alpha)
    (halpha2 : 2 * alpha ≤ 1) :
    ∀ (n : ℕ) (h : F),
    |gdLoop (fun x => 2 * (x - c)) alpha tol h n - c| ≤
      max (tol / (2 * alpha)) ((1 - 2 * alpha) ^ n * |h - c|) := by
  have h2a : (0 : F) < 2 * alpha := by linarith
  have hg0 : (0 : F) ≤ 1 - 2 * alpha := by linarith
  intro n
  induction n with
  | zero =>
    intro h
    have e : gdLoop (fun x => 2 * (x - c)) alpha tol h 0 = h := rfl
    rw [e, pow_zero, one_mul]
    exact le_max_right _ _
  | succ n ih =>
    intro h
    rw [gdLoop_succ]
    by_cases hc : |gdUpdate (fun x => 2 * (x - c)) alpha h - h| < tol
    · rw [if_pos hc]
      have e : gdUpdate (fun x => 2 * (x - c)) alpha h - h = -(2 * alpha) * (h - c) := by
        simp only [gdUpdate]
        ring
      rw [e, abs_mul, abs_neg, abs_of_pos h2a] at hc
      refine le_trans (le_of_lt ?_) (le_max_left _ _)
      rw [lt_div_iff₀ h2a]
      linarith
    · rw [if_neg hc]
      have e : gdUpdate (fun x => 2 * (x - c)) alpha h - c = (1 - 2 * alpha) * (h - c) := by
        simp only [gdUpdate]
        ring
      have hrec := ih (gdUpdate (fun x => 2 * (x - c)) alpha h)
      rw [e, abs_mul, abs_of_nonneg hg0] at hrec
      refine le_trans hrec (le_of_eq (congrArg (max _) ?_))
      ring

/-! ## The claims -/

/-- C1: if the convergence check fails on every iteration before `k` and
fires on iteration `k` (with `k` within the budget), `gradient_descent`
terminates on that iteration and returns the pre-update current value, the
`k`-fold iterate of the update map, not the freshly computed candidate; in
particular for `k = 0` (the very first iteration) the returned value is the
initial guess `h_0` unchanged. -/
theorem c1_converged_returns_pre_update (derivative_of_f : F → F)
    (h_0 alpha tol : F) (max_iter k : ℕ) (halpha : 0 < alpha) (htol : 0 < tol)
    (hk : k < max_iter)
    (hbefore : ∀ j < k,
      ¬ |gdUpdate derivative_of_f alpha ((gdUpdate derivative_of_f alpha)^[j] h_0) -
          (gdUpdate derivative_of_f alpha)^[j] h_0| < tol)
    (hfire : |gdUpdate derivative_of_f alpha ((gdUpdate derivative_of_f alpha)^[k] h_0) -
        (gdUpdate derivative_of_f alpha)^[k] h_0| < tol) :
    gradient_descent derivative_of_f h_0 alpha max_iter tol =
      (gdUpdate derivative_of_f alpha)^[k] h_0 ∧
    (k = 0 → gradient_descent derivative_of_f h_0 alpha max_iter tol = h_0) := by
  have hmain := gdLoop_eq_of_first_fire derivative_of_f alpha tol k max_iter h_0
    hk hbefore hfire
  refine ⟨hmain, fun hk0 => ?_⟩
  subst hk0
  rw [gradient_descent, hmain, Function.iterate_zero_apply]

/-- Witness for C1: with the zero derivative, step size 1 and tolerance 1,
the check fires on the very first iteration and the initial guess 5 is
returned unchanged. -/
theorem c1_converged_returns_pre_update_witness :
    gradient_descent (fun _ => (0 : ℚ)) 5 1 3 1 = 5 := by
  have h := c1_converged_returns_pre_update (fun _ => (0 : ℚ)) 5 1 1 3 0
    (by norm_num) (by norm_num) (by norm_num)
    (fun j hj => absurd hj (Nat.not_lt_zero j))
    (by norm_num [gdUpdate])
  exact h.2 rfl

/-- C2: each new candidate is the update map applied to the current value,
so when the convergence check fails on all `max_iter` iterations,
`gradient_descent` returns the `max_iter`-fold iterate of
`fun h => h - alpha * derivative_of_f h` applied to `h_0` (the last
computed candidate), and the adopted candidates are exactly the iterates
`1, ..., max_iter` in order. -/
theorem c2_iterates_update_map (derivative_of_f : F → F) (h_0 alpha tol : F)
    (max_iter : ℕ)
    (hnofire : ∀ j < max_iter,
      ¬ |gdUpdate derivative_of_f alpha ((gdUpdate derivative_of_f alpha)^[j] h_0) -
          (gdUpdate derivative_of_f alpha)^[j] h_0| < tol) :
    gradient_descent derivative_of_f h_0 alpha max_iter tol =
      (gdUpdate derivative_of_f alpha)^[max_iter] h_0 ∧
    gdAdopted derivative_of_f alpha tol h_0 max_iter =
      (List.range max_iter).map (fun j => (gdUpdate derivative_of_f alpha)^[j + 1] h_0) :=
  gdLoop_eq_of_no_fire derivative_of_f alpha tol max_iter h_0 hnofire

/-- Witness for C2: with the constant derivative 1 and step size 1 each
step moves by exactly 1, so with tolerance 1/2 the check never fires and
the budget of 3 iterations is exhausted. -/
theorem c2_iterates_update_map_witness :
    gradient_descent (fun _ => (1 : ℚ)) 1 1 3 (1/2) =
      (gdUpdate (fun _ => (1 : ℚ)) 1)^[3] 1 ∧
    gdAdopted (fun _ => (1 : ℚ)) 1 (1/2) 1 3 =
      (List.range 3).map (fun j => (gdUpdate (fun _ => (1 : ℚ)) 1)^[j + 1] 1) :=
  c2_iterates_update_map (fun _ => (1 : ℚ)) 1 1 (1/2) 3
    (by
      intro j hj
      have e : gdUpdate (fun _ => (1 : ℚ)) 1 ((gdUpdate (fun _ => (1 : ℚ)) 1)^[j] 1) -
          (gdUpdate (fun _ => (1 : ℚ)) 1)^[j] 1 = -1 := by
        simp only [gdUpdate]
        ring
      rw [e]
      norm_num)

/-- C3: the minimizer is total — the loop runs at most `max_iter`
iterations, evaluating the derivative at most `max_iter` times (the
computed-candidates trace has one entry per derivative evaluation), and it
returns the last adopted candidate (the initial guess when none was
adopted), whatever its magnitude. -/
theorem c3_total_bounded_evaluations (derivative_of_f : F → F)
    (h_0 alpha tol : F) (max_iter : ℕ) :
    (gdCandidates derivative_of_f alpha tol h_0 max_iter).length ≤ max_iter ∧
    gradient_descent derivative_of_f h_0 alpha max_iter tol =
      (gdAdopted derivative_of_f alpha tol h_0 max_iter).getLastD h_0 :=
  ⟨gdCandidates_length_le derivative_of_f alpha tol max_iter h_0,
   gdLoop_eq_getLastD derivative_of_f alpha tol max_iter h_0⟩

/-- C4: the returned value is independent of the verbose flag and of the
supplied callback — any setting of the two yields the value of the run
with verbosity off and no callback, which is the pure `gradient_descent`
value. -/
theorem c4_result_independent_of_effects (derivative_of_f : F → F)
    (h_0 alpha tol : F) (max_iter : ℕ) (verbose hasCallback : Bool) :
    (gradient_descent_run derivative_of_f h_0 alpha max_iter tol verbose
        hasCallback).result =
      (gradient_descent_run derivative_of_f h_0 alpha max_iter tol false
        false).result ∧
    (gradient_descent_run derivative_of_f h_0 alpha max_iter tol verbose
        hasCallback).result =
      gradient_descent derivative_of_f h_0 alpha max_iter tol := by
  have h1 := gdRunLoop_result derivative_of_f alpha tol verbose hasCallback
    max_iter h_0 0
  have h2 := gdRunLoop_result derivative_of_f alpha tol false false
    max_iter h_0 0
  exact ⟨h1.trans h2.symm, h1⟩

/-- C5 as stated is false on the code: with derivative constantly 1, step
size 1, tolerance 10, initial guess 0 and one available iteration, the
candidate -1 = 0 - 1 * 1 is computed on iteration 0, yet the convergence
check fires first and the loop breaks before the callback line runs, so a
supplied callback is never invoked — in particular not with the computed
candidate -1. -/
theorem c5_counterexample_callback_skipped :
    gdCandidates (fun _ => (1 : ℚ)) 1 10 0 1 = [-1] ∧
    (gradient_descent_run (fun _ => (1 : ℚ)) 0 1 1 10 false true).callbackCalls
      = [] := by
  constructor
  · norm_num [gdCandidates, abs_lt]
  · norm_num [gradient_descent_run, gdRunLoop, abs_lt]

/-- C5 amended: when a callback is supplied, it is invoked with the updated
candidate after each committed step — its arguments are exactly the adopted
candidates, in order; on an iteration where the convergence check fires,
the computed candidate is not passed to the callback (the break comes
first). -/
theorem c5_callback_gets_adopted_candidates (derivative_of_f : F → F)
    (h_0 alpha tol : F) (max_iter : ℕ) (verbose : Bool) :
    (gradient_descent_run derivative_of_f h_0 alpha max_iter tol verbose
        true).callbackCalls =
      gdAdopted derivative_of_f alpha tol h_0 max_iter :=
  gdRunLoop_callbackCalls derivative_of_f alpha tol verbose max_iter h_0 0

/-- C6: with an iteration budget of 0 the minimizer returns the initial
guess without evaluating the derivative (the computed-candidates trace is
empty), and with a budget of 1 it returns either the initial guess or the
first computed candidate `h_0 - alpha * derivative_of_f h_0`. -/
theorem c6_boundary_zero_one (derivative_of_f : F → F) (h_0 alpha tol : F) :
    gradient_descent derivative_of_f h_0 alpha 0 tol = h_0 ∧
    gdCandidates derivative_of_f alpha tol h_0 0 = [] ∧
    (gradient_descent derivative_of_f h_0 alpha 1 tol = h_0 ∨
     gradient_descent derivative_of_f h_0 alpha 1 tol =
       h_0 - alpha * derivative_of_f h_0) := by
  refine ⟨rfl, rfl, ?_⟩
  by_cases hc : |gdUpdate derivative_of_f alpha h_0 - h_0| < tol
  · left
    show gdLoop derivative_of_f alpha tol h_0 (0 + 1) = h_0
    rw [gdLoop_succ, if_pos hc]
  · right
    show gdLoop derivative_of_f alpha tol h_0 (0 + 1) =
      h_0 - alpha * derivative_of_f h_0
    rw [gdLoop_succ, if_neg hc]
    rfl

/-- C7: for the quadratic-bowl derivative `fun h => 2 * (h - c)` and a
sufficiently small positive step size, the minimizer converges to `c` as
the tolerance shrinks: for any target accuracy `eps` no smaller than the
residual left by the finite iteration cap, every tolerance at most
`2 * alpha * eps` lands the returned value within `eps` of `c`. -/
theorem c7_quadratic_convergence (c h_0 alpha tol eps : F) (max_iter : ℕ)
    (halpha : 0 < alpha) (halpha2 : 2 * alpha ≤ 1) (htol : 0 < tol)
    (htole : tol ≤ 2 * alpha * eps)
    (hcap : (1 - 2 * alpha) ^ max_iter * |h_0 - c| ≤ eps) :
    |gradient_descent (fun h => 2 * (h - c)) h_0 alpha max_iter tol - c| ≤
      eps := by
  have h2a : (0 : F) < 2 * alpha := by linarith
  have hb := gdLoop_quadratic_bound c alpha tol halpha halpha2 max_iter h_0
  refine le_trans hb (max_le ?_ hcap)
  rw [div_le_iff₀ h2a]
  linarith

/-- Witness for C7: with step size 1/2 the contraction factor is 0, so with
`c = 0`, initial guess 1, the default cap 10000, accuracy 1/4 and tolerance
1/4 the returned value is within 1/4 of the minimizer 0. -/
theorem c7_quadratic_convergence_witness :
    |gradient_descent (fun h => 2 * (h - (0 : ℚ))) 1 (1/2) 10000 (1/4) - 0| ≤
      (1/4 : ℚ) :=
  c7_quadratic_convergence 0 1 (1/2) (1/4) (1/4) 10000
    (by norm_num) (by norm_num) (by norm_num) (by norm_num) (by norm_num)

/-- C8: in the notebook divergence demo — derivative
`fun h => 2 * (h - 100000)`, initial guess 60000, step size 11/10, cap 6,
default tolerance 1e-12 — every one of the 6 checks fails (all 6 candidates
are adopted) and the candidates move strictly farther from the minimizer
100000 at every step: the run diverges instead of converging. -/
theorem c8_divergence_demo :
    gdAdopted (fun h => 2 * (h - (100000 : ℚ))) (11/10) (1/10^12) 60000 6 =
      [148000, 42400, 169120, 17056, 997664/5, -485984/25] ∧
    (gdAdopted (fun h => 2 * (h - (100000 : ℚ))) (11/10) (1/10^12) 60000 6).length
      = 6 ∧
    List.Chain' (fun a b => |a - 100000| < |b - 100000|)
      ((60000 : ℚ) ::
        gdAdopted (fun h => 2 * (h - (100000 : ℚ))) (11/10) (1/10^12) 60000 6) := by
  have e : gdAdopted (fun h => 2 * (h - (100000 : ℚ))) (11/10) (1/10^12) 60000 6 =
      [148000, 42400, 169120, 17056, 997664/5, -485984/25] := by
    norm_num [gdAdopted, abs_lt]
  refine ⟨e, by rw [e]; rfl, ?_⟩
  rw [e]
  norm_num [List.chain'_cons, abs_lt, abs_of_nonneg, abs_of_nonpos]

/-- C9: a point `r` at which the tolerance is already satisfied,
`|alpha * derivative_of_f r| < tol`, is a fixed point of the minimizer:
started there it returns `r` itself with no productive update (so running
the minimizer on its own output under this hypothesis changes nothing). -/
theorem c9_terminal_state_fixed (derivative_of_f : F → F) (r alpha tol : F)
    (max_iter : ℕ) (hterm : |alpha * derivative_of_f r| < tol) :
    gradient_descent derivative_of_f r alpha max_iter tol = r := by
  cases max_iter with
  | zero => rfl
  | succ n =>
    show gdLoop derivative_of_f alpha tol r (n + 1) = r
    rw [gdLoop_succ]
    have e : |gdUpdate derivative_of_f alpha r - r| < tol := by
      have e2 : gdUpdate derivative_of_f alpha r - r =
          -(alpha * derivative_of_f r) := by
        simp only [gdUpdate]
        ring
      rw [e2, abs_neg]
      exact hterm
    rw [if_pos e]

/-- Witness for C9: with the zero derivative, step size 1 and tolerance 1
the hypothesis holds at `r = 7`, and the minimizer returns 7. -/
theorem c9_terminal_state_fixed_witness :
    |(1 : ℚ) * (fun _ => (0 : ℚ)) 7| < 1 ∧
    gradient_descent (fun _ => (0 : ℚ)) 7 1 5 1 = 7 :=
  ⟨by norm_num, c9_terminal_state_fixed (fun _ => (0 : ℚ)) 7 1 1 5 (by norm_num)⟩

/-- C10: the convergence comparison is strict — when `|next - current|`
equals the tolerance exactly the loop does not terminate (the candidate is
adopted and iteration continues with the remaining budget), and with
tolerance 0 the check can never fire, so the minimizer always performs all
`max_iter` iterations, returning the `max_iter`-fold iterate of the update
map. -/
theorem c10_strict_comparison (derivative_of_f : F → F) (h_0 alpha tol : F)
    (n : ℕ)
    (heq : |gdUpdate derivative_of_f alpha h_0 - h_0| = tol) :
    gradient_descent derivative_of_f h_0 alpha (n + 1) tol =
      gradient_descent derivative_of_f (gdUpdate derivative_of_f alpha h_0)
        alpha n tol ∧
    ∀ (h : F) (N : ℕ),
      gradient_descent derivative_of_f h alpha N 0 =
        (gdUpdate derivative_of_f alpha)^[N] h := by
  constructor
  · show gdLoop derivative_of_f alpha tol h_0 (n + 1) =
      gdLoop derivative_of_f alpha tol (gdUpdate derivative_of_f alpha h_0) n
    rw [gdLoop_succ, if_neg (by rw [heq]; exact lt_irrefl tol)]
  · intro h N
    exact (gdLoop_eq_of_no_fire derivative_of_f alpha 0 N h
      (fun j hj => not_lt.mpr (abs_nonneg _))).1

/-- Witness for C10: with the constant derivative 1, step size 1, initial
guess 0 and tolerance 1 the first step moves by exactly the tolerance, so
the loop continues; and with tolerance 0 every budget is exhausted. -/
theorem c10_strict_comparison_witness :
    |gdUpdate (fun _ => (1 : ℚ)) 1 0 - 0| = 1 ∧
    (gradient_descent (fun _ => (1 : ℚ)) 0 1 (1 + 1) 1 =
      gradient_descent (fun _ => (1 : ℚ)) (gdUpdate (fun _ => (1 : ℚ)) 1 0) 1 1 1 ∧
    ∀ (h : ℚ) (N : ℕ),
      gradient_descent (fun _ => (1 : ℚ)) h 1 N 0 =
        (gdUpdate (fun _ => (1 : ℚ)) 1)^[N] h) :=
  ⟨by norm_num [gdUpdate],
   c10_strict_comparison (fun _ => (1 : ℚ)) 0 1 1 1 (by norm_num [gdUpdate])⟩

end DSC40A
